import Mathlib

/-!
Verification of the BDNS scraper (`scraper.py`, `resume_scraper.py`) of the
UltimateDB repository: a shallow embedding of the crawl-and-persist core
(fetch outcome classification, row flattening, year-partitioned buffering,
merge-persist store, enumeration driver loop, resume policy) together with
proofs of the spec's testable properties.

Modelling conventions:
- JSON scalar payloads are modelled as `Option String` (absent / null = `none`);
  only their identity matters to the properties proved here.
- Network behaviour is modelled as a finite trace of fetch outcomes, one per
  successively probed identifier.
- The persisted per-year parquet files are modelled as an association list
  from year to the file's list of rows; a missing entry means the file does
  not exist on disk.
- Persistence failures (the `except` branch of `save_to_parquet`) are driven
  by an explicit failure oracle: a set of years whose write raises.
-/

/-- One element of a multi-valued dimension list (`instrumentos`,
`tiposBeneficiarios`, `sectores`, `regiones`): a small JSON object with an
optional `descripcion` and, for sectors, an optional `codigo`. -/
structure Dim where
  descripcion : Option String := none
  codigo : Option String := none
deriving DecidableEq, Repr

/-- The `organo` sub-object of an API response. -/
structure Organo where
  nivel1 : Option String := none
  nivel2 : Option String := none
  nivel3 : Option String := none
deriving DecidableEq, Repr

/-- An API response body (a `Found` record), as read by `transform_data`:
the scalar fields fetched with `data.get(...)`, the `organo` sub-object, and
the four multi-valued dimension lists.  An absent list is modelled as
`none`-free empty list, which the code treats identically to an empty one. -/
structure Record where
  id : Option String := none
  codigoBDNS : Option String := none
  fechaRecepcion : Option String := none
  sedeElectronica : Option String := none
  tipoConvocatoria : Option String := none
  presupuestoTotal : Option String := none
  mrr : Option String := none
  descripcion : Option String := none
  descripcionLeng : Option String := none
  descripcionFinalidad : Option String := none
  descripcionBasesReguladoras : Option String := none
  urlBasesReguladoras : Option String := none
  sePublicaDiarioOficial : Option String := none
  abierto : Option String := none
  fechaInicioSolicitud : Option String := none
  fechaFinSolicitud : Option String := none
  textInicio : Option String := none
  textFin : Option String := none
  organo : Option Organo := none
  instrumentos : List Dim := []
  tiposBeneficiarios : List Dim := []
  sectores : List Dim := []
  regiones : List Dim := []
deriving DecidableEq, Repr

/-- One flattened output row of `transform_data`: the denormalized scalar
fields of the record, the derived partition key `year`, and the chosen
combination of the four dimensions. -/
structure Row where
  id : Option String := none
  codigoBDNS : Option String := none
  fechaRecepcion : Option String := none
  sedeElectronica : Option String := none
  tipoConvocatoria : Option String := none
  presupuestoTotal : Option String := none
  mrr : Option String := none
  descripcion : Option String := none
  descripcionLeng : Option String := none
  descripcionFinalidad : Option String := none
  descripcionBasesReguladoras : Option String := none
  urlBasesReguladoras : Option String := none
  sePublicaDiarioOficial : Option String := none
  abierto : Option String := none
  fechaInicioSolicitud : Option String := none
  fechaFinSolicitud : Option String := none
  textInicio : Option String := none
  textFin : Option String := none
  organo_nivel1 : Option String := none
  organo_nivel2 : Option String := none
  organo_nivel3 : Option String := none
  year : Option Nat := none
  instrumento_descripcion : Option String := none
  tipoBeneficiario_descripcion : Option String := none
  sector_descripcion : Option String := none
  sector_codigo : Option String := none
  region_descripcion : Option String := none
deriving DecidableEq, Repr

/-- `START_BDNS = 747573` in `scraper.py`. -/
def START_BDNS : Nat := 747573

/-- `MAX_CONSECUTIVE_404 = 10` in `scraper.py`. -/
def MAX_CONSECUTIVE_404 : Nat := 10

/-- Models `datetime.strptime(s, "%Y-%m-%d").year`: succeeds only on a
ten-character dash-separated digit string whose year is at least `datetime`'s
minimum year 1 and whose month and day are in range (day-per-month precision
is not modelled; no claim depends on it).  Returns `none` where the Python
call raises `ValueError`, which `transform_data` catches and maps to a null
year. -/
def strptimeYear (s : String) : Option Nat :=
  match s.toList with
  | [y1, y2, y3, y4, sep1, m1, m2, sep2, d1, d2] =>
    if y1.isDigit && y2.isDigit && y3.isDigit && y4.isDigit
        && (sep1 == '-') && (sep2 == '-')
        && m1.isDigit && m2.isDigit && d1.isDigit && d2.isDigit then
      let year := (y1.toNat - 48) * 1000 + (y2.toNat - 48) * 100
        + (y3.toNat - 48) * 10 + (y4.toNat - 48)
      let month := (m1.toNat - 48) * 10 + (m2.toNat - 48)
      let day := (d1.toNat - 48) * 10 + (d2.toNat - 48)
      if 1 ≤ year && 1 ≤ month && month ≤ 12 && 1 ≤ day && day ≤ 31 then
        some year
      else none
    else none
  | _ => none

/-- The treatment of one dimension list in `transform_data`: an absent key
defaults to `[{}]` via `data.get`, and a present-but-empty (or null) list is
replaced by `[{}]` by the explicit `if not ...` checks; a non-empty list is
used as is. -/
def padDim (l : List Dim) : List Dim :=
  if l.isEmpty then [{}] else l

/-- `BDNSScraper.transform_data`: build the scalar `base_data` (including the
flattened `organo` levels and the derived `year`), then emit one row per
element of `itertools.product` over the four padded dimension lists, the
rightmost dimension varying fastest. -/
def transform_data (data : Record) : List Row :=
  let year : Option Nat :=
    match data.fechaRecepcion with
    | some s => strptimeYear s
    | none => none
  (padDim data.instrumentos).flatMap fun inst =>
    (padDim data.tiposBeneficiarios).flatMap fun benef =>
      (padDim data.sectores).flatMap fun sector =>
        (padDim data.regiones).map fun region =>
          { id := data.id
            codigoBDNS := data.codigoBDNS
            fechaRecepcion := data.fechaRecepcion
            sedeElectronica := data.sedeElectronica
            tipoConvocatoria := data.tipoConvocatoria
            presupuestoTotal := data.presupuestoTotal
            mrr := data.mrr
            descripcion := data.descripcion
            descripcionLeng := data.descripcionLeng
            descripcionFinalidad := data.descripcionFinalidad
            descripcionBasesReguladoras := data.descripcionBasesReguladoras
            urlBasesReguladoras := data.urlBasesReguladoras
            sePublicaDiarioOficial := data.sePublicaDiarioOficial
            abierto := data.abierto
            fechaInicioSolicitud := data.fechaInicioSolicitud
            fechaFinSolicitud := data.fechaFinSolicitud
            textInicio := data.textInicio
            textFin := data.textFin
            organo_nivel1 := data.organo.bind Organo.nivel1
            organo_nivel2 := data.organo.bind Organo.nivel2
            organo_nivel3 := data.organo.bind Organo.nivel3
            year := year
            instrumento_descripcion := inst.descripcion
            tipoBeneficiario_descripcion := benef.descripcion
            sector_descripcion := sector.descripcion
            sector_codigo := sector.codigo
            region_descripcion := region.descripcion }

/-- The deduplication key used by `drop_duplicates(subset=["codigoBDNS"])`
and by the resume scan: the `codigoBDNS` column of a row. -/
def rowKey (r : Row) : Option String := r.codigoBDNS

/-- `true` iff some row of `l` has key `k` (pandas treats two null keys as
equal duplicates, which `Option` equality also does). -/
def hasKey (l : List Row) (k : Option String) : Bool :=
  l.any fun r => rowKey r == k

/-- `combined_df.drop_duplicates(subset=["codigoBDNS"], keep="last")`: keep
each row exactly when no later row shares its key, preserving the relative
order of the kept rows. -/
def dropDuplicatesKeepLast : List Row → List Row
  | [] => []
  | x :: xs =>
    if hasKey xs (rowKey x) then dropDuplicatesKeepLast xs
    else x :: dropDuplicatesKeepLast xs

/-- A persisted per-year parquet file, as a list of rows. -/
abbrev Dataset := List Row

/-- The store-level content of one `save_to_parquet` call for a fixed year:
`existing` is the current file content (`none` when the file does not exist),
`rows` the in-memory buffer for that year.  An empty buffer is a no-op (the
guard at the top of `save_to_parquet`); otherwise an existing file is loaded,
the new rows are concatenated after it, the result is deduplicated by
`codigoBDNS` keeping the last occurrence, and the file is overwritten; with
no existing file the buffer is written verbatim. -/
def flush (existing : Option Dataset) (rows : List Row) : Option Dataset :=
  if rows.isEmpty then existing
  else
    match existing with
    | some e => some (dropDuplicatesKeepLast (e ++ rows))
    | none => some rows

/-- First row of `l` whose key is `k` (the unique such row when keys are
deduplicated). -/
def findByKey (l : List Row) (k : Option String) : Option Row :=
  l.find? fun r => rowKey r == k

/-- Last row of `l` whose key is `k`. -/
def lastWithKey (l : List Row) (k : Option String) : Option Row :=
  l.reverse.find? fun r => rowKey r == k

/-- The identifier column of `l` has no duplicates. -/
def keysNodup (l : List Row) : Prop :=
  (l.map rowKey).Nodup

instance (l : List Row) : Decidable (keysNodup l) :=
  List.nodupDecidable (l.map rowKey)

/-- `find_last_bdns` of `resume_scraper.py`, over the list of persisted
files, each given by its `codigoBDNS` column cast to int.  With no files the
fixed fallback 600000 is returned; otherwise one past the maximum identifier
across all files.  `none` models the `ValueError` Python's `max` raises on an
empty sequence (files present but all without rows). -/
def find_last_bdns (files : List (List Nat)) : Option Nat :=
  if files.isEmpty then some 600000
  else
    match files.flatten with
    | [] => none
    | x :: xs => some (xs.foldl max x + 1)

/-- The classification of one fetch in `fetch_convocatoria`:
HTTP 200 with parseable body, HTTP 404, any other HTTP status, or a
network-level `requests.exceptions.RequestException`.  The spec groups the
last two as `TransientError`. -/
inductive FetchOutcome where
  | found (data : Record)
  | notFound
  | badStatus
  | requestException
deriving DecidableEq, Repr

/-- The mutable fields of `BDNSScraper` plus the persisted files on disk.
`dataframes_by_year` is the in-memory partition buffer (a Python dict keyed
by year, insertion-ordered, modelled as an association list); `store` is the
set of `bdns_<year>.parquet` files. -/
structure ScraperState where
  current_bdns : Nat
  consecutive_404s : Nat
  dataframes_by_year : List (Nat × List Row)
  total_records : Nat
  total_requests : Nat
  store : List (Nat × Dataset)
deriving DecidableEq, Repr

/-- `BDNSScraper.__init__(start_bdns)`: buffers and counters start empty;
`store` is the content already on disk when the run starts. -/
def initialState (start : Nat) (store : List (Nat × Dataset)) : ScraperState :=
  { current_bdns := start
    consecutive_404s := 0
    dataframes_by_year := []
    total_records := 0
    total_requests := 0
    store := store }

/-- `BDNSScraper.fetch_convocatoria`, driven by the outcome the network
would produce for the probed identifier.  `total_requests` is incremented
once a response arrives (so not on a request exception); `consecutive_404s`
is incremented exactly on a 404 and reset exactly on a 200; any other status
and a request exception leave it unchanged and return `None`. -/
def fetch_convocatoria (st : ScraperState) (outcome : FetchOutcome) :
    ScraperState × Option Record :=
  match outcome with
  | .found data =>
    ({ st with total_requests := st.total_requests + 1, consecutive_404s := 0 },
      some data)
  | .notFound =>
    ({ st with total_requests := st.total_requests + 1,
               consecutive_404s := st.consecutive_404s + 1 }, none)
  | .badStatus =>
    ({ st with total_requests := st.total_requests + 1 }, none)
  | .requestException => (st, none)

/-- The year buffer for `year` (`self.dataframes_by_year[year]`); a missing
key reads as the empty buffer. -/
def bufGet : List (Nat × List Row) → Nat → List Row
  | [], _ => []
  | (y, rs) :: rest, year => if y = year then rs else bufGet rest year

/-- Append one row to `year`'s buffer, creating the key at the end of the
dict when absent (Python dicts preserve insertion order). -/
def bufAppend : List (Nat × List Row) → Nat → Row → List (Nat × List Row)
  | [], year, row => [(year, [row])]
  | (y, rs) :: rest, year, row =>
    if y = year then (y, rs ++ [row]) :: rest
    else (y, rs) :: bufAppend rest year row

/-- `self.dataframes_by_year[year] = pd.DataFrame()`: the key survives with
an empty buffer. -/
def bufClear (bufs : List (Nat × List Row)) (year : Nat) :
    List (Nat × List Row) :=
  bufs.map fun p => if p.1 = year then (p.1, []) else p

/-- The on-disk file for `year` (`none` = `file_path.exists()` is false). -/
def storeGet : List (Nat × Dataset) → Nat → Option Dataset
  | [], _ => none
  | (y, d) :: rest, year => if y = year then some d else storeGet rest year

/-- Overwrite (or create) the on-disk file for `year`. -/
def storeSet : List (Nat × Dataset) → Nat → Dataset → List (Nat × Dataset)
  | [], year, d => [(year, d)]
  | (y, old) :: rest, year, d =>
    if y = year then (y, d) :: rest else (y, old) :: storeSet rest year d

/-- `BDNSScraper.add_rows`: group the incoming rows by their `year` value
(skipping rows whose year is falsy in Python, i.e. `None` or `0`), append
each group to its year's buffer and count it into `total_records`.  Folding
row by row produces the same final dict and counter as the two-pass grouping
in the source. -/
def add_rows (st : ScraperState) (rows : List Row) : ScraperState :=
  rows.foldl
    (fun s row =>
      match row.year with
      | some y =>
        if y ≠ 0 then
          { s with dataframes_by_year := bufAppend s.dataframes_by_year y row,
                   total_records := s.total_records + 1 }
        else s
      | none => s)
    st

/-- `BDNSScraper.save_to_parquet(year)` with an explicit failure oracle:
`fail` is true when the file operations inside the `try` raise, in which
case the error is only logged, so neither the store nor the buffer changes
(in particular the buffer-clearing assignment is skipped — it sits after the
write inside the `try`).  An empty or absent buffer returns immediately.  On
success the file becomes `flush` of its previous content with the buffer,
and the buffer is cleared. -/
def save_to_parquet (fail : Bool) (st : ScraperState) (year : Nat) :
    ScraperState :=
  let buffer := bufGet st.dataframes_by_year year
  if buffer.isEmpty then st
  else if fail then st
  else
    let newData :=
      match storeGet st.store year with
      | some existing => dropDuplicatesKeepLast (existing ++ buffer)
      | none => buffer
    { st with store := storeSet st.store year newData,
              dataframes_by_year := bufClear st.dataframes_by_year year }

/-- The flush loop appearing twice in `BDNSScraper.run` (periodic flush and
final drain): for every year key of the buffer dict, save it when non-empty.
`failSet` lists the years whose write raises (empty in the driver model). -/
def flushAll (failSet : List Nat) (st : ScraperState) : ScraperState :=
  (st.dataframes_by_year.map Prod.fst).foldl
    (fun s y =>
      if (bufGet s.dataframes_by_year y).isEmpty then s
      else save_to_parquet (failSet.contains y) s y)
    st

/-- The `if data:` branch of one loop iteration of `BDNSScraper.run`:
transform, buffer, and flush every non-empty partition when
`total_records > 0 and total_records % 100 == 0` after the addition. -/
def processFound (st : ScraperState) (data : Record) : ScraperState :=
  let st2 := add_rows st (transform_data data)
  if 0 < st2.total_records ∧ st2.total_records % 100 = 0 then flushAll [] st2
  else st2

/-- One full iteration of the `while` loop in `BDNSScraper.run`: fetch the
current identifier, process a found record, then advance `current_bdns` by 1
regardless of outcome (`USE_DELAY` is false, so the delay branch is inert). -/
def processIteration (st : ScraperState) (outcome : FetchOutcome) :
    ScraperState :=
  let fr := fetch_convocatoria st outcome
  let st2 :=
    match fr.2 with
    | some data => processFound fr.1 data
    | none => fr.1
  { st2 with current_bdns := st2.current_bdns + 1 }

/-- The `while self.consecutive_404s < MAX_CONSECUTIVE_404` loop of
`BDNSScraper.run`, driven by a finite trace of fetch outcomes (one per
successive identifier; an exhausted trace models the user cancelling the
run).  Returns the state when the loop exits together with the unconsumed
suffix of the trace — outcomes the driver never probed. -/
def runLoop : ScraperState → List FetchOutcome → ScraperState × List FetchOutcome
  | st, [] => (st, [])
  | st, o :: rest =>
    if st.consecutive_404s < MAX_CONSECUTIVE_404 then
      runLoop (processIteration st o) rest
    else (st, o :: rest)

/-- `BDNSScraper.run`: the main loop followed by the `finally` block, which
drains every non-empty partition whether the loop ended by reaching the
consecutive-404 threshold or by a `KeyboardInterrupt` (trace exhaustion). -/
def run (st : ScraperState) (outcomes : List FetchOutcome) : ScraperState :=
  flushAll [] (runLoop st outcomes).1

/-- How one fetch outcome updates `consecutive_404s` in the source: reset on
200, increment on 404, unchanged on any other status or request exception. -/
def stepCounter (c : Nat) (o : FetchOutcome) : Nat :=
  match o with
  | .found _ => 0
  | .notFound => c + 1
  | .badStatus => c
  | .requestException => c

/-- Number of probes the loop performs before exiting, computed from the
counter alone. -/
def probeCount (c : Nat) : List FetchOutcome → Nat
  | [] => 0
  | o :: rest =>
    if c < MAX_CONSECUTIVE_404 then probeCount (stepCounter c o) rest + 1
    else 0

/-- The consecutive-failure counter as the spec describes it: every
non-`Found` outcome increments it, `Found` resets it to 0.  (Stated from the
spec sentence of C1, to be compared with the source behaviour.) -/
def specConsecutiveNonFound (c : Nat) (o : FetchOutcome) : Nat :=
  match o with
  | .found _ => 0
  | _ => c + 1

theorem hasKey_cons (x : Row) (xs : List Row) (k : Option String) :
    hasKey (x :: xs) k = ((rowKey x == k) || hasKey xs k) := by
  simp [hasKey]

theorem hasKey_append (l₁ l₂ : List Row) (k : Option String) :
    hasKey (l₁ ++ l₂) k = (hasKey l₁ k || hasKey l₂ k) := by
  simp [hasKey, List.any_append]

theorem hasKey_self (x : Row) (xs : List Row) :
    hasKey (x :: xs) (rowKey x) = true := by
  simp [hasKey]

theorem hasKey_eq_mem_map (l : List Row) (k : Option String) :
    hasKey l k = true ↔ k ∈ l.map rowKey := by
  rw [hasKey, List.any_eq_true]
  constructor
  · rintro ⟨r, hr, hb⟩
    exact (eq_of_beq hb) ▸ List.mem_map_of_mem rowKey hr
  · intro hm
    rcases List.mem_map.mp hm with ⟨r, hr, hk⟩
    exact ⟨r, hr, by simp [hk]⟩

theorem hasKey_dedup (l : List Row) (k : Option String) :
    hasKey (dropDuplicatesKeepLast l) k = hasKey l k := by
  induction l with
  | nil => rfl
  | cons x xs ih =>
    rw [dropDuplicatesKeepLast]
    cases h : hasKey xs (rowKey x) with
    | false => simp [ih, hasKey_cons, h]
    | true =>
      rw [if_pos rfl, ih, hasKey_cons]
      cases hp : (rowKey x == k) with
      | false => simp
      | true =>
        have hk : k = rowKey x := (eq_of_beq hp).symm
        rw [hk, h]
        simp

theorem dedup_append_of_keys_subset (X Y : List Row)
    (h : ∀ k, hasKey X k = true → hasKey Y k = true) :
    dropDuplicatesKeepLast (X ++ Y) = dropDuplicatesKeepLast Y := by
  induction X with
  | nil => rfl
  | cons x X ih =>
    rw [List.cons_append, dropDuplicatesKeepLast]
    have hx : hasKey (X ++ Y) (rowKey x) = true := by
      rw [hasKey_append]
      have := h (rowKey x) (hasKey_self x X)
      simp [this]
    rw [if_pos hx]
    exact ih fun k hk => h k (by simp [hasKey_cons, hk])

theorem dedup_append_self_self (Z Y : List Row) :
    dropDuplicatesKeepLast (Z ++ (Y ++ Y)) = dropDuplicatesKeepLast (Z ++ Y) := by
  induction Z with
  | nil =>
    simp only [List.nil_append]
    exact dedup_append_of_keys_subset Y Y fun k hk => hk
  | cons z Z ih =>
    rw [List.cons_append, List.cons_append, dropDuplicatesKeepLast,
      dropDuplicatesKeepLast]
    have hcond : hasKey (Z ++ (Y ++ Y)) (rowKey z) = hasKey (Z ++ Y) (rowKey z) := by
      simp [hasKey_append, Bool.or_assoc]
    rw [hcond]
    cases h : hasKey (Z ++ Y) (rowKey z) with
    | false => simp [ih]
    | true => simp [ih]

theorem dedup_dedup_append (X Y : List Row) :
    dropDuplicatesKeepLast (dropDuplicatesKeepLast X ++ Y)
      = dropDuplicatesKeepLast (X ++ Y) := by
  induction X with
  | nil => rfl
  | cons x X ih =>
    rw [dropDuplicatesKeepLast]
    cases h : hasKey X (rowKey x) with
    | true =>
      rw [if_pos rfl, ih, List.cons_append, dropDuplicatesKeepLast,
        if_pos (by rw [hasKey_append, h]; rfl)]
    | false =>
      rw [if_neg (by simp), List.cons_append, List.cons_append,
        dropDuplicatesKeepLast, dropDuplicatesKeepLast]
      have hL : hasKey (dropDuplicatesKeepLast X ++ Y) (rowKey x)
          = hasKey Y (rowKey x) := by
        rw [hasKey_append, hasKey_dedup, h, Bool.false_or]
      have hR : hasKey (X ++ Y) (rowKey x) = hasKey Y (rowKey x) := by
        rw [hasKey_append, h, Bool.false_or]
      rw [hL, hR]
      cases hy : hasKey Y (rowKey x) with
      | true => simp [ih]
      | false => simp [ih]

theorem dedup_of_keysNodup (l : List Row) (h : keysNodup l) :
    dropDuplicatesKeepLast l = l := by
  induction l with
  | nil => rfl
  | cons x xs ih =>
    rw [keysNodup, List.map_cons, List.nodup_cons] at h
    have hx : hasKey xs (rowKey x) = false := by
      cases hc : hasKey xs (rowKey x) with
      | false => rfl
      | true => exact absurd ((hasKey_eq_mem_map xs (rowKey x)).mp hc) h.1
    rw [dropDuplicatesKeepLast, if_neg (by simp [hx]), ih h.2]

theorem keysNodup_dedup (l : List Row) :
    keysNodup (dropDuplicatesKeepLast l) := by
  induction l with
  | nil => exact List.nodup_nil
  | cons x xs ih =>
    rw [dropDuplicatesKeepLast]
    cases h : hasKey xs (rowKey x) with
    | true => simpa using ih
    | false =>
      rw [if_neg (by simp)]
      rw [keysNodup, List.map_cons, List.nodup_cons]
      refine ⟨fun hm => ?_, ih⟩
      have : hasKey (dropDuplicatesKeepLast xs) (rowKey x) = true :=
        (hasKey_eq_mem_map _ _).mpr hm
      rw [hasKey_dedup, h] at this
      exact Bool.false_ne_true this

theorem lastWithKey_eq_none (l : List Row) (k : Option String)
    (h : hasKey l k = false) : lastWithKey l k = none := by
  rw [lastWithKey, List.find?_eq_none]
  intro r hr
  rw [hasKey, List.any_eq_false] at h
  exact h r (List.mem_reverse.mp hr)

theorem lastWithKey_cons (x : Row) (xs : List Row) (k : Option String) :
    lastWithKey (x :: xs) k
      = (lastWithKey xs k).or (if rowKey x == k then some x else none) := by
  rw [lastWithKey, List.reverse_cons, List.find?_append, lastWithKey]
  cases hp : (rowKey x == k) with
  | true => simp [List.find?, hp]
  | false => simp [List.find?, hp]

theorem lastWithKey_isSome (l : List Row) (k : Option String)
    (h : hasKey l k = true) : (lastWithKey l k).isSome = true := by
  rw [hasKey, List.any_eq_true] at h
  rcases h with ⟨r, hr, hb⟩
  rw [lastWithKey, List.find?_isSome]
  exact ⟨r, List.mem_reverse.mpr hr, hb⟩

theorem findByKey_dedup (l : List Row) (k : Option String) :
    findByKey (dropDuplicatesKeepLast l) k = lastWithKey l k := by
  induction l with
  | nil => rfl
  | cons x xs ih =>
    rw [dropDuplicatesKeepLast, lastWithKey_cons]
    cases h : hasKey xs (rowKey x) with
    | true =>
      rw [if_pos rfl, ih]
      cases hl : lastWithKey xs k with
      | some r => rfl
      | none =>
        rw [Option.none_or]
        cases hp : (rowKey x == k) with
        | false => simp
        | true =>
          have hk : k = rowKey x := (eq_of_beq hp).symm
          rw [hk] at hl
          have hs := lastWithKey_isSome xs (rowKey x) h
          rw [hl] at hs
          exact absurd hs (by simp)
    | false =>
      rw [if_neg (by simp [h])]
      cases hp : (rowKey x == k) with
      | true =>
        have hk : k = rowKey x := (eq_of_beq hp).symm
        rw [findByKey]
        simp only [List.find?_cons, hp]
        rw [hk, lastWithKey_eq_none xs (rowKey x) h, Option.none_or]
        simp
      | false =>
        rw [findByKey]
        simp only [List.find?_cons, hp]
        rw [if_neg (by simp), Option.or_none]
        exact ih

theorem filter_key_length_one (l : List Row) (k : Option String)
    (h1 : keysNodup l) (h2 : hasKey l k = true) :
    (l.filter fun r => rowKey r == k).length = 1 := by
  induction l with
  | nil => exact absurd h2 (by simp [hasKey])
  | cons x xs ih =>
    rw [keysNodup, List.map_cons, List.nodup_cons] at h1
    rw [List.filter_cons]
    cases hp : (rowKey x == k) with
    | true =>
      have hk : k = rowKey x := (eq_of_beq hp).symm
      have hx : hasKey xs k = false := by
        cases hc : hasKey xs k with
        | false => rfl
        | true =>
          rw [hk] at hc
          exact absurd ((hasKey_eq_mem_map xs (rowKey x)).mp hc) h1.1
      have hnil : xs.filter (fun r => rowKey r == k) = [] := by
        rw [List.filter_eq_nil_iff]
        intro r hr hpr
        rw [hasKey, List.any_eq_false] at hx
        exact hx r hr hpr
      simp [hnil]
    | false =>
      have h2x : hasKey xs k = true := by
        rw [hasKey_cons, hp, Bool.false_or] at h2
        exact h2
      simpa using ih h1.2 h2x

theorem find?_of_all {α : Type} (p : α → Bool) (m : List α)
    (h : ∀ x ∈ m, p x = true) : m.find? p = m.head? := by
  cases m with
  | nil => rfl
  | cons x xs =>
    rw [List.find?_cons, h x (List.mem_cons_self x xs)]
    rfl

theorem lastWithKey_of_all (l : List Row) (k : Option String)
    (h : ∀ r ∈ l, rowKey r = k) : lastWithKey l k = l.getLast? := by
  rw [lastWithKey, find?_of_all]
  · exact List.head?_reverse l
  · intro r hr
    simp [h r (List.mem_reverse.mp hr)]

theorem lastWithKey_append (l₁ l₂ : List Row) (k : Option String) :
    lastWithKey (l₁ ++ l₂) k = (lastWithKey l₂ k).or (lastWithKey l₁ k) := by
  rw [lastWithKey, List.reverse_append, List.find?_append, lastWithKey, lastWithKey]

theorem length_flatMap_const {α β : Type} (l : List α) (f : α → List β) (k : Nat)
    (h : ∀ a, (f a).length = k) : (l.flatMap f).length = l.length * k := by
  induction l with
  | nil => simp
  | cons x xs ih =>
    rw [List.flatMap_cons, List.length_append, h, ih, List.length_cons,
      Nat.succ_mul, Nat.add_comm]

theorem length_product_shape {α₁ α₂ α₃ α₄ β : Type}
    (l₁ : List α₁) (l₂ : List α₂) (l₃ : List α₃) (l₄ : List α₄)
    (g : α₁ → α₂ → α₃ → α₄ → β) :
    (l₁.flatMap fun a => l₂.flatMap fun b => l₃.flatMap fun c =>
        l₄.map fun d => g a b c d).length
      = l₁.length * (l₂.length * (l₃.length * l₄.length)) := by
  have h4 : ∀ a b c, ((l₄.map fun d => g a b c d)).length = l₄.length :=
    fun a b c => List.length_map _ _
  have h3 : ∀ a b, ((l₃.flatMap fun c => l₄.map fun d => g a b c d)).length
      = l₃.length * l₄.length :=
    fun a b => length_flatMap_const _ _ _ (h4 a b)
  have h2 : ∀ a, ((l₂.flatMap fun b => l₃.flatMap fun c =>
      l₄.map fun d => g a b c d)).length = l₂.length * (l₃.length * l₄.length) :=
    fun a => length_flatMap_const _ _ _ (h3 a)
  exact length_flatMap_const _ _ _ h2

theorem padDim_length (l : List Dim) : (padDim l).length = max l.length 1 := by
  cases l with
  | nil => rfl
  | cons x xs =>
    rw [padDim, if_neg (by simp)]
    rw [List.length_cons]
    omega

theorem transform_data_length (data : Record) :
    (transform_data data).length
      = max data.instrumentos.length 1 * max data.tiposBeneficiarios.length 1
        * max data.sectores.length 1 * max data.regiones.length 1 := by
  rw [transform_data]
  rw [length_product_shape]
  rw [padDim_length, padDim_length, padDim_length, padDim_length]
  ring

theorem transform_data_ne_nil (data : Record) : transform_data data ≠ [] := by
  have hpos : 0 < (transform_data data).length := by
    rw [transform_data_length]
    have h1 : 0 < max data.instrumentos.length 1 := by omega
    have h2 : 0 < max data.tiposBeneficiarios.length 1 := by omega
    have h3 : 0 < max data.sectores.length 1 := by omega
    have h4 : 0 < max data.regiones.length 1 := by omega
    exact Nat.mul_pos (Nat.mul_pos (Nat.mul_pos h1 h2) h3) h4
  exact (List.length_pos.mp hpos)

theorem transform_data_mem (data : Record) (row : Row)
    (h : row ∈ transform_data data) :
    row.id = data.id ∧ row.codigoBDNS = data.codigoBDNS
      ∧ row.fechaRecepcion = data.fechaRecepcion
      ∧ row.sedeElectronica = data.sedeElectronica
      ∧ row.tipoConvocatoria = data.tipoConvocatoria
      ∧ row.presupuestoTotal = data.presupuestoTotal
      ∧ row.mrr = data.mrr
      ∧ row.descripcion = data.descripcion
      ∧ row.descripcionLeng = data.descripcionLeng
      ∧ row.descripcionFinalidad = data.descripcionFinalidad
      ∧ row.descripcionBasesReguladoras = data.descripcionBasesReguladoras
      ∧ row.urlBasesReguladoras = data.urlBasesReguladoras
      ∧ row.sePublicaDiarioOficial = data.sePublicaDiarioOficial
      ∧ row.abierto = data.abierto
      ∧ row.fechaInicioSolicitud = data.fechaInicioSolicitud
      ∧ row.fechaFinSolicitud = data.fechaFinSolicitud
      ∧ row.textInicio = data.textInicio
      ∧ row.textFin = data.textFin
      ∧ row.organo_nivel1 = data.organo.bind Organo.nivel1
      ∧ row.organo_nivel2 = data.organo.bind Organo.nivel2
      ∧ row.organo_nivel3 = data.organo.bind Organo.nivel3 := by
  rw [transform_data] at h
  simp only [List.mem_flatMap, List.mem_map] at h
  obtain ⟨inst, _, benef, _, sector, _, region, _, hrow⟩ := h
  subst hrow
  exact ⟨rfl, rfl, rfl, rfl, rfl, rfl, rfl, rfl, rfl, rfl, rfl, rfl, rfl, rfl,
    rfl, rfl, rfl, rfl, rfl, rfl, rfl⟩

theorem transform_data_rowKey (data : Record) (row : Row)
    (h : row ∈ transform_data data) : rowKey row = data.codigoBDNS := by
  rw [transform_data] at h
  simp only [List.mem_flatMap, List.mem_map] at h
  obtain ⟨inst, _, benef, _, sector, _, region, _, hrow⟩ := h
  subst hrow
  rfl

theorem bufGet_of_not_mem_keys (bufs : List (Nat × List Row)) (y : Nat)
    (h : y ∉ bufs.map Prod.fst) : bufGet bufs y = [] := by
  induction bufs with
  | nil => rfl
  | cons p rest ih =>
    obtain ⟨a, rs⟩ := p
    rw [List.map_cons, List.mem_cons] at h
    push_neg at h
    rw [bufGet, if_neg (fun hx => h.1 hx.symm)]
    exact ih h.2

theorem bufGet_bufClear_same (bufs : List (Nat × List Row)) (y : Nat) :
    bufGet (bufClear bufs y) y = [] := by
  induction bufs with
  | nil => rfl
  | cons p rest ih =>
    obtain ⟨a, rs⟩ := p
    rw [bufClear, List.map_cons]
    by_cases h : a = y
    · rw [if_pos h]
      show bufGet ((a, []) :: _) y = []
      rw [bufGet, if_pos h]
    · rw [if_neg h]
      show bufGet ((a, rs) :: _) y = []
      rw [bufGet, if_neg h]
      exact ih

theorem bufGet_bufClear_other (bufs : List (Nat × List Row)) (y y2 : Nat)
    (h : y2 ≠ y) : bufGet (bufClear bufs y) y2 = bufGet bufs y2 := by
  induction bufs with
  | nil => rfl
  | cons p rest ih =>
    obtain ⟨a, rs⟩ := p
    rw [bufClear, List.map_cons]
    by_cases ha : a = y
    · rw [if_pos ha]
      show bufGet ((a, []) :: _) y2 = _
      rw [bufGet, bufGet, if_neg (fun hx => h (hx.symm.trans ha)),
        if_neg (fun hx => h (hx.symm.trans ha))]
      exact ih
    · rw [if_neg ha]
      show bufGet ((a, rs) :: _) y2 = _
      rw [bufGet, bufGet]
      by_cases hb : a = y2
      · rw [if_pos hb, if_pos hb]
      · rw [if_neg hb, if_neg hb]
        exact ih

theorem storeGet_storeSet_same (store : List (Nat × Dataset)) (y : Nat)
    (d : Dataset) : storeGet (storeSet store y d) y = some d := by
  induction store with
  | nil => simp [storeSet, storeGet]
  | cons p rest ih =>
    obtain ⟨a, old⟩ := p
    rw [storeSet]
    by_cases h : a = y
    · rw [if_pos h, storeGet, if_pos h]
    · rw [if_neg h, storeGet, if_neg h]
      exact ih

theorem storeGet_storeSet_other (store : List (Nat × Dataset)) (y y2 : Nat)
    (d : Dataset) (h : y2 ≠ y) :
    storeGet (storeSet store y d) y2 = storeGet store y2 := by
  induction store with
  | nil =>
    show (if y = y2 then some d else storeGet [] y2) = storeGet [] y2
    rw [if_neg (fun hx => h hx.symm)]
  | cons p rest ih =>
    obtain ⟨a, old⟩ := p
    rw [storeSet]
    by_cases ha : a = y
    · rw [if_pos ha, storeGet, storeGet, if_neg (fun hx => h (hx.symm.trans ha)),
        if_neg (fun hx => h (hx.symm.trans ha))]
    · rw [if_neg ha, storeGet, storeGet]
      by_cases hb : a = y2
      · rw [if_pos hb, if_pos hb]
      · rw [if_neg hb, if_neg hb]
        exact ih

theorem flush_nil (existing : Option Dataset) : flush existing [] = existing := rfl

theorem flush_eq (existing : Option Dataset) (rows : List Row) :
    flush existing rows
      = if rows.isEmpty then existing
        else match existing with
          | some e => some (dropDuplicatesKeepLast (e ++ rows))
          | none => some rows := rfl

theorem flush_some (e : Dataset) (rows : List Row) (h : rows ≠ []) :
    flush (some e) rows = some (dropDuplicatesKeepLast (e ++ rows)) := by
  rw [flush_eq, if_neg (by simp [List.isEmpty_iff, h])]

theorem flush_none_of_ne_nil (rows : List Row) (h : rows ≠ []) :
    flush none rows = some rows := by
  rw [flush_eq, if_neg (by simp [List.isEmpty_iff, h])]

theorem save_true_eq (st : ScraperState) (y : Nat) :
    save_to_parquet true st y = st := by
  simp only [save_to_parquet]
  by_cases h : (bufGet st.dataframes_by_year y).isEmpty
  · rw [if_pos h]
  · rw [if_neg h]
    simp

theorem save_false_bufGet (st : ScraperState) (y : Nat) :
    bufGet (save_to_parquet false st y).dataframes_by_year y = [] := by
  simp only [save_to_parquet]
  by_cases h : (bufGet st.dataframes_by_year y).isEmpty
  · rw [if_pos h]
    exact List.isEmpty_iff.mp h
  · rw [if_neg h, if_neg (by simp)]
    exact bufGet_bufClear_same _ _

theorem save_false_storeGet (st : ScraperState) (y : Nat) :
    storeGet (save_to_parquet false st y).store y
      = flush (storeGet st.store y) (bufGet st.dataframes_by_year y) := by
  simp only [save_to_parquet]
  by_cases h : (bufGet st.dataframes_by_year y).isEmpty
  · rw [if_pos h, List.isEmpty_iff.mp h, flush_nil]
  · rw [if_neg h, if_neg (by simp), flush_eq, if_neg h]
    cases hs : storeGet st.store y with
    | none =>
      simp only [hs]
      exact storeGet_storeSet_same _ _ _
    | some e =>
      simp only [hs]
      exact storeGet_storeSet_same _ _ _

theorem save_other_bufGet (fail : Bool) (st : ScraperState) (y y2 : Nat)
    (h : y2 ≠ y) :
    bufGet (save_to_parquet fail st y).dataframes_by_year y2
      = bufGet st.dataframes_by_year y2 := by
  simp only [save_to_parquet]
  by_cases he : (bufGet st.dataframes_by_year y).isEmpty
  · rw [if_pos he]
  · rw [if_neg he]
    cases fail with
    | true => simp
    | false =>
      rw [if_neg (by simp)]
      exact bufGet_bufClear_other _ _ _ h

theorem save_other_storeGet (fail : Bool) (st : ScraperState) (y y2 : Nat)
    (h : y2 ≠ y) :
    storeGet (save_to_parquet fail st y).store y2 = storeGet st.store y2 := by
  simp only [save_to_parquet]
  by_cases he : (bufGet st.dataframes_by_year y).isEmpty
  · rw [if_pos he]
  · rw [if_neg he]
    cases fail with
    | true => simp
    | false =>
      rw [if_neg (by simp)]
      exact storeGet_storeSet_other _ _ _ _ h

theorem save_consecutive (fail : Bool) (st : ScraperState) (y : Nat) :
    (save_to_parquet fail st y).consecutive_404s = st.consecutive_404s := by
  simp only [save_to_parquet]
  by_cases he : (bufGet st.dataframes_by_year y).isEmpty
  · rw [if_pos he]
  · rw [if_neg he]
    cases fail with
    | true => simp
    | false => rw [if_neg (by simp)]

/-- The per-key step of `flushAll`, named for the fold lemmas below. -/
def flushStep (failSet : List Nat) (s2 : ScraperState) (k : Nat) : ScraperState :=
  if (bufGet s2.dataframes_by_year k).isEmpty then s2
  else save_to_parquet (failSet.contains k) s2 k

theorem flushAll_eq_foldl (failSet : List Nat) (st : ScraperState) :
    flushAll failSet st
      = (st.dataframes_by_year.map Prod.fst).foldl (flushStep failSet) st := rfl

theorem flushStep_bufGet_same (failSet : List Nat) (s : ScraperState) (k : Nat) :
    bufGet (flushStep failSet s k).dataframes_by_year k
      = (if failSet.contains k then bufGet s.dataframes_by_year k else []) := by
  rw [flushStep]
  by_cases he : (bufGet s.dataframes_by_year k).isEmpty
  · rw [if_pos he, List.isEmpty_iff.mp he]
    cases failSet.contains k <;> simp
  · rw [if_neg he]
    cases hc : failSet.contains k with
    | true => rw [save_true_eq, if_pos rfl]
    | false => rw [save_false_bufGet, if_neg (by simp)]

theorem flushStep_storeGet_same (failSet : List Nat) (s : ScraperState) (k : Nat) :
    storeGet (flushStep failSet s k).store k
      = (if failSet.contains k then storeGet s.store k
         else flush (storeGet s.store k) (bufGet s.dataframes_by_year k)) := by
  rw [flushStep]
  by_cases he : (bufGet s.dataframes_by_year k).isEmpty
  · rw [if_pos he, List.isEmpty_iff.mp he, flush_nil]
    cases failSet.contains k <;> simp
  · rw [if_neg he]
    cases hc : failSet.contains k with
    | true => rw [save_true_eq, if_pos rfl]
    | false => rw [save_false_storeGet, if_neg (by simp)]

theorem flushStep_bufGet_other (failSet : List Nat) (s : ScraperState)
    (k y2 : Nat) (h : y2 ≠ k) :
    bufGet (flushStep failSet s k).dataframes_by_year y2
      = bufGet s.dataframes_by_year y2 := by
  rw [flushStep]
  by_cases he : (bufGet s.dataframes_by_year k).isEmpty
  · rw [if_pos he]
  · rw [if_neg he, save_other_bufGet _ _ _ _ h]

theorem flushStep_storeGet_other (failSet : List Nat) (s : ScraperState)
    (k y2 : Nat) (h : y2 ≠ k) :
    storeGet (flushStep failSet s k).store y2 = storeGet s.store y2 := by
  rw [flushStep]
  by_cases he : (bufGet s.dataframes_by_year k).isEmpty
  · rw [if_pos he]
  · rw [if_neg he, save_other_storeGet _ _ _ _ h]

theorem foldFlush_bufGet (failSet : List Nat) (keys : List Nat)
    (s : ScraperState) (y : Nat) :
    bufGet (keys.foldl (flushStep failSet) s).dataframes_by_year y
      = (if y ∈ keys ∧ failSet.contains y = false then []
         else bufGet s.dataframes_by_year y) := by
  induction keys generalizing s with
  | nil => rw [List.foldl_nil, if_neg (by simp)]
  | cons k ks ih =>
    rw [List.foldl_cons, ih]
    by_cases hin : y ∈ ks ∧ failSet.contains y = false
    · rw [if_pos hin,
        if_pos (⟨List.mem_cons_of_mem k hin.1, hin.2⟩ :
          y ∈ k :: ks ∧ failSet.contains y = false)]
    · rw [if_neg hin]
      by_cases hyk : y = k
      · subst hyk
        by_cases hc : failSet.contains y = true
        · rw [if_neg (show ¬(y ∈ y :: ks ∧ failSet.contains y = false) from
            fun hcon => absurd hcon.2 (by rw [hc]; simp)),
            flushStep_bufGet_same, if_pos hc]
        · have hcf : failSet.contains y = false := by
            cases hx : failSet.contains y with
            | false => rfl
            | true => exact absurd hx hc
          rw [if_pos (⟨List.mem_cons_self y ks, hcf⟩ :
            y ∈ y :: ks ∧ failSet.contains y = false),
            flushStep_bufGet_same, if_neg hc]
      · rw [if_neg (show ¬(y ∈ k :: ks ∧ failSet.contains y = false) by
          intro hcon
          rcases List.mem_cons.mp hcon.1 with h1 | h1
          · exact hyk h1
          · exact hin ⟨h1, hcon.2⟩),
          flushStep_bufGet_other _ _ _ _ hyk]

theorem foldFlush_storeGet (failSet : List Nat) (keys : List Nat)
    (s : ScraperState) (y : Nat) :
    storeGet (keys.foldl (flushStep failSet) s).store y
      = (if y ∈ keys ∧ failSet.contains y = false
         then flush (storeGet s.store y) (bufGet s.dataframes_by_year y)
         else storeGet s.store y) := by
  induction keys generalizing s with
  | nil => rw [List.foldl_nil, if_neg (by simp)]
  | cons k ks ih =>
    rw [List.foldl_cons, ih]
    by_cases hin : y ∈ ks ∧ failSet.contains y = false
    · rw [if_pos hin,
        if_pos (⟨List.mem_cons_of_mem k hin.1, hin.2⟩ :
          y ∈ k :: ks ∧ failSet.contains y = false)]
      by_cases hyk : y = k
      · subst hyk
        have hcn : ¬ failSet.contains y = true := by
          rw [hin.2]; exact Bool.false_ne_true
        rw [flushStep_storeGet_same, if_neg hcn,
          flushStep_bufGet_same, if_neg hcn, flush_nil]
      · rw [flushStep_storeGet_other _ _ _ _ hyk,
          flushStep_bufGet_other _ _ _ _ hyk]
    · rw [if_neg hin]
      by_cases hyk : y = k
      · subst hyk
        by_cases hc : failSet.contains y = true
        · rw [if_neg (show ¬(y ∈ y :: ks ∧ failSet.contains y = false) from
            fun hcon => absurd hcon.2 (by rw [hc]; simp)),
            flushStep_storeGet_same, if_pos hc]
        · have hcf : failSet.contains y = false := by
            cases hx : failSet.contains y with
            | false => rfl
            | true => exact absurd hx hc
          rw [if_pos (⟨List.mem_cons_self y ks, hcf⟩ :
            y ∈ y :: ks ∧ failSet.contains y = false),
            flushStep_storeGet_same, if_neg hc]
      · rw [if_neg (show ¬(y ∈ k :: ks ∧ failSet.contains y = false) by
          intro hcon
          rcases List.mem_cons.mp hcon.1 with h1 | h1
          · exact hyk h1
          · exact hin ⟨h1, hcon.2⟩),
          flushStep_storeGet_other _ _ _ _ hyk]

theorem flushAll_bufGet (failSet : List Nat) (st : ScraperState) (y : Nat) :
    bufGet (flushAll failSet st).dataframes_by_year y
      = (if y ∈ st.dataframes_by_year.map Prod.fst ∧ failSet.contains y = false
         then [] else bufGet st.dataframes_by_year y) := by
  rw [flushAll_eq_foldl]
  exact foldFlush_bufGet failSet _ st y

theorem flushAll_storeGet (failSet : List Nat) (st : ScraperState) (y : Nat) :
    storeGet (flushAll failSet st).store y
      = (if y ∈ st.dataframes_by_year.map Prod.fst ∧ failSet.contains y = false
         then flush (storeGet st.store y) (bufGet st.dataframes_by_year y)
         else storeGet st.store y) := by
  rw [flushAll_eq_foldl]
  exact foldFlush_storeGet failSet _ st y

theorem flushAll_nil_bufGet (st : ScraperState) (y : Nat) :
    bufGet (flushAll [] st).dataframes_by_year y = [] := by
  rw [flushAll_bufGet]
  by_cases hm : y ∈ st.dataframes_by_year.map Prod.fst
  · rw [if_pos ⟨hm, rfl⟩]
  · rw [if_neg (fun hcon => hm hcon.1)]
    exact bufGet_of_not_mem_keys _ _ hm

theorem flushAll_nil_storeGet (st : ScraperState) (y : Nat) :
    storeGet (flushAll [] st).store y
      = flush (storeGet st.store y) (bufGet st.dataframes_by_year y) := by
  rw [flushAll_storeGet]
  by_cases hm : y ∈ st.dataframes_by_year.map Prod.fst
  · rw [if_pos ⟨hm, rfl⟩]
  · rw [if_neg (fun hcon => hm hcon.1),
      bufGet_of_not_mem_keys _ _ hm, flush_nil]

theorem flushStep_consecutive (failSet : List Nat) (s : ScraperState) (k : Nat) :
    (flushStep failSet s k).consecutive_404s = s.consecutive_404s := by
  rw [flushStep]
  by_cases he : (bufGet s.dataframes_by_year k).isEmpty
  · rw [if_pos he]
  · rw [if_neg he, save_consecutive]

theorem foldFlush_consecutive (failSet : List Nat) (keys : List Nat)
    (s : ScraperState) :
    (keys.foldl (flushStep failSet) s).consecutive_404s = s.consecutive_404s := by
  induction keys generalizing s with
  | nil => rfl
  | cons k ks ih =>
    rw [List.foldl_cons, ih, flushStep_consecutive]

theorem flushAll_consecutive (failSet : List Nat) (st : ScraperState) :
    (flushAll failSet st).consecutive_404s = st.consecutive_404s := by
  rw [flushAll_eq_foldl, foldFlush_consecutive]

theorem add_rows_consecutive (rows : List Row) (st : ScraperState) :
    (add_rows st rows).consecutive_404s = st.consecutive_404s := by
  induction rows generalizing st with
  | nil => rfl
  | cons r rs ih =>
    rw [add_rows, List.foldl_cons, ← add_rows, ih]
    cases hy : r.year with
    | none => rfl
    | some yy =>
      simp only [hy]
      split
      · rfl
      · rfl

theorem processFound_consecutive (st : ScraperState) (data : Record) :
    (processFound st data).consecutive_404s = st.consecutive_404s := by
  rw [processFound]
  split
  · rw [flushAll_consecutive, add_rows_consecutive]
  · rw [add_rows_consecutive]

theorem processIteration_consecutive (st : ScraperState) (o : FetchOutcome) :
    (processIteration st o).consecutive_404s = stepCounter st.consecutive_404s o := by
  cases o with
  | found d =>
    show (processFound (fetch_convocatoria st (FetchOutcome.found d)).1 d).consecutive_404s = 0
    rw [processFound_consecutive]
    rfl
  | notFound => rfl
  | badStatus => rfl
  | requestException => rfl

theorem runLoop_snd (outcomes : List FetchOutcome) (st : ScraperState) :
    (runLoop st outcomes).2
      = outcomes.drop (probeCount st.consecutive_404s outcomes) := by
  induction outcomes generalizing st with
  | nil => rfl
  | cons o rest ih =>
    rw [runLoop, probeCount]
    by_cases h : st.consecutive_404s < MAX_CONSECUTIVE_404
    · rw [if_pos h, if_pos h, ih, processIteration_consecutive,
        List.drop_succ_cons]
    · rw [if_neg h, if_neg h, List.drop_zero]

theorem runLoop_counter (outcomes : List FetchOutcome) (st : ScraperState) :
    (runLoop st outcomes).1.consecutive_404s
      = List.foldl stepCounter st.consecutive_404s
          (outcomes.take (probeCount st.consecutive_404s outcomes)) := by
  induction outcomes generalizing st with
  | nil => rfl
  | cons o rest ih =>
    rw [runLoop, probeCount]
    by_cases h : st.consecutive_404s < MAX_CONSECUTIVE_404
    · rw [if_pos h, if_pos h, List.take_succ_cons, List.foldl_cons, ih,
        processIteration_consecutive]
    · rw [if_neg h, if_neg h, List.take_zero, List.foldl_nil]

theorem probeCount_lt (outcomes : List FetchOutcome) (c k : Nat)
    (hk : k < probeCount c outcomes) :
    List.foldl stepCounter c (outcomes.take k) < MAX_CONSECUTIVE_404 := by
  induction outcomes generalizing c k with
  | nil => rw [probeCount] at hk; omega
  | cons o rest ih =>
    rw [probeCount] at hk
    by_cases h : c < MAX_CONSECUTIVE_404
    · rw [if_pos h] at hk
      cases k with
      | zero => simpa using h
      | succ j =>
        rw [List.take_succ_cons, List.foldl_cons]
        exact ih (stepCounter c o) j (by omega)
    · rw [if_neg h] at hk
      omega

theorem probeCount_stop (outcomes : List FetchOutcome) (c : Nat)
    (hc : c ≤ MAX_CONSECUTIVE_404)
    (h : probeCount c outcomes < outcomes.length) :
    List.foldl stepCounter c (outcomes.take (probeCount c outcomes))
      = MAX_CONSECUTIVE_404 := by
  induction outcomes generalizing c with
  | nil => rw [probeCount] at h; simp at h
  | cons o rest ih =>
    rw [probeCount] at h ⊢
    by_cases hlt : c < MAX_CONSECUTIVE_404
    · rw [if_pos hlt] at h ⊢
      rw [List.take_succ_cons, List.foldl_cons]
      have hM : MAX_CONSECUTIVE_404 = 10 := rfl
      have hstep : stepCounter c o ≤ MAX_CONSECUTIVE_404 := by
        rw [hM] at hlt ⊢
        cases o <;> simp [stepCounter] <;> omega
      exact ih (stepCounter c o) hstep (by rw [List.length_cons] at h; omega)
    · rw [if_neg hlt] at h ⊢
      rw [List.take_zero, List.foldl_nil]
      omega

theorem hasKey_of_mem (l : List Row) (r : Row) (h : r ∈ l) :
    hasKey l (rowKey r) = true := by
  rw [hasKey, List.any_eq_true]
  exact ⟨r, h, by simp⟩

theorem foldl_max_le (xs : List Nat) (x m : Nat) (hx : x ≤ m)
    (hxs : ∀ z ∈ xs, z ≤ m) : xs.foldl max x ≤ m := by
  induction xs generalizing x with
  | nil => exact hx
  | cons a as ih =>
    rw [List.foldl_cons]
    exact ih (max x a) (max_le hx (hxs a (List.mem_cons_self a as)))
      (fun z hz => hxs z (List.mem_cons_of_mem a hz))

theorem le_foldl_max (xs : List Nat) (x : Nat) : x ≤ xs.foldl max x := by
  induction xs generalizing x with
  | nil => exact Nat.le_refl x
  | cons a as ih =>
    rw [List.foldl_cons]
    exact Nat.le_trans (Nat.le_max_left x a) (ih (max x a))

theorem mem_le_foldl_max (xs : List Nat) (x m : Nat) (h : m ∈ xs) :
    m ≤ xs.foldl max x := by
  induction xs generalizing x with
  | nil => exact absurd h (List.not_mem_nil m)
  | cons a as ih =>
    rw [List.foldl_cons]
    rcases List.mem_cons.mp h with h1 | h1
    · rw [h1]
      exact Nat.le_trans (Nat.le_max_right x a) (le_foldl_max as (max x a))
    · exact ih (max x a) h1

/-- Concrete fixtures shared by the witnesses and counterexamples below. -/
def sX : String := "x"

def sY : String := "y"

def sZ : String := "z"

def sK : String := "100001"

def sV1 : String := "V1"

def sV2 : String := "V2"

def sDate : String := "2024-03-15"

/-- A found record with two financial instruments (so two flattened rows),
received in 2024. -/
def recTwoInst : Record :=
  { codigoBDNS := some sK
    fechaRecepcion := some sDate
    instrumentos := [{ descripcion := some sX }, { descripcion := some sY }] }

/-- A found record with three financial instruments (three flattened rows). -/
def recThreeInst : Record :=
  { codigoBDNS := some sK
    fechaRecepcion := some sDate
    instrumentos := [{ descripcion := some sX }, { descripcion := some sY },
                     { descripcion := some sZ }] }

/-- The flattened row of `recTwoInst` or `recThreeInst` carrying instrument
description `v`. -/
def rowInst (v : String) : Row :=
  { codigoBDNS := some sK
    fechaRecepcion := some sDate
    year := some 2024
    instrumento_descripcion := some v }

/-- A previously persisted row with the same identifier. -/
def rowOld : Row := { codigoBDNS := some sK, descripcion := some sZ }

/-- Two distinct rows sharing one identifier (two dimension combinations of
one announcement). -/
def rowA : Row := { codigoBDNS := some sK, instrumento_descripcion := some sX }

def rowB : Row := { codigoBDNS := some sK, instrumento_descripcion := some sY }

/-- Rows carrying values V1 and V2 for the same identifier. -/
def rowV1 : Row := { codigoBDNS := some sK, descripcion := some sV1 }

def rowV2 : Row := { codigoBDNS := some sK, descripcion := some sV2 }

/-- A scraper state holding one buffered 2024 row, nothing persisted. -/
def stBuf : ScraperState :=
  { current_bdns := START_BDNS
    consecutive_404s := 0
    dataframes_by_year := [(2024, [rowInst sX])]
    total_records := 1
    total_requests := 1
    store := [] }

/-- A fresh run whose disk already holds a 2024 dataset containing the
identifier of `recTwoInst` (the resume scenario). -/
def stPre : ScraperState := initialState START_BDNS [(2024, [rowOld])]

/-- 49 found records of two rows each: buffered total 98. -/
def trace49 : List FetchOutcome := List.replicate 49 (FetchOutcome.found recTwoInst)

/-- The same trace followed by a three-row record: the total jumps from 98
to 101, crossing 100 without landing on it. -/
def trace50 : List FetchOutcome := trace49 ++ [FetchOutcome.found recThreeInst]

/-- C1 (counterexample): the claim counts `TransientError` into the
consecutive-failure counter, so by its own rule (`specConsecutiveNonFound`)
ten straight request exceptions reach the threshold and the Driver would
never perform an eleventh probe.  The source Driver probes all eleven
outcomes of an all-transient trace (nothing of the trace is left unconsumed)
and its counter is still 0: transient errors never touch
`consecutive_404s`. -/
theorem C1_transient_counterexample :
    List.foldl specConsecutiveNonFound 0
        ((List.replicate 11 FetchOutcome.requestException).take 10)
      = MAX_CONSECUTIVE_404
    ∧ (runLoop (initialState START_BDNS [])
        (List.replicate 11 FetchOutcome.requestException)).2 = []
    ∧ (runLoop (initialState START_BDNS [])
        (List.replicate 11 FetchOutcome.requestException)).1.consecutive_404s
      = 0 :=
  ⟨by decide, by decide, by decide⟩

/-- C1 (amended): only `NotFound` (HTTP 404) increments the
consecutive-failure counter, `Found` resets it to 0, and a transient error
(non-200/404 status or request exception) leaves it unchanged — the
`stepCounter` rule.  Under that rule the Driver stops exactly at the
threshold: it consumes precisely the first `probeCount` outcomes of the
trace and no more; before every probe it performs the counter is strictly
below the threshold (it never stops early for this reason); and whenever it
leaves part of the trace unprobed, the counter has reached exactly the
threshold. -/
theorem C1_driver_termination (st : ScraperState) (outcomes : List FetchOutcome)
    (h : st.consecutive_404s ≤ MAX_CONSECUTIVE_404) :
    (runLoop st outcomes).2
        = outcomes.drop (probeCount st.consecutive_404s outcomes)
    ∧ (runLoop st outcomes).1.consecutive_404s
        = List.foldl stepCounter st.consecutive_404s
            (outcomes.take (probeCount st.consecutive_404s outcomes))
    ∧ (∀ k, k < probeCount st.consecutive_404s outcomes →
        List.foldl stepCounter st.consecutive_404s (outcomes.take k)
          < MAX_CONSECUTIVE_404)
    ∧ ((runLoop st outcomes).2 ≠ [] →
        (runLoop st outcomes).1.consecutive_404s = MAX_CONSECUTIVE_404) := by
  refine ⟨runLoop_snd outcomes st, runLoop_counter outcomes st,
    fun k hk => probeCount_lt outcomes _ k hk, fun hne => ?_⟩
  rw [runLoop_counter]
  apply probeCount_stop outcomes _ h
  by_contra hge
  push_neg at hge
  have hd := runLoop_snd outcomes st
  rw [List.drop_eq_nil_of_le hge] at hd
  exact hne hd

/-- C1 witness: on eleven straight 404s the Driver performs exactly ten
probes and leaves the eleventh outcome unprobed. -/
theorem C1_driver_termination_witness :
    (runLoop (initialState START_BDNS [])
        (List.replicate 11 FetchOutcome.notFound)).2
      = [FetchOutcome.notFound] := by
  have h := (C1_driver_termination (initialState START_BDNS [])
    (List.replicate 11 FetchOutcome.notFound) (by decide)).1
  rw [h]
  decide

/-- C2: the Flattener emits exactly max(a,1)·max(b,1)·max(c,1)·max(d,1) rows
for a record whose four dimension lists have lengths a, b, c, d — never
zero — and every emitted row carries all of the record's scalar fields
(including the flattened organo levels) unchanged. -/
theorem C2_flattener_rows (data : Record) :
    ((transform_data data).length
        = max data.instrumentos.length 1 * max data.tiposBeneficiarios.length 1
          * max data.sectores.length 1 * max data.regiones.length 1
      ∧ transform_data data ≠ [])
    ∧ ∀ row ∈ transform_data data,
        row.id = data.id ∧ row.codigoBDNS = data.codigoBDNS
          ∧ row.fechaRecepcion = data.fechaRecepcion
          ∧ row.sedeElectronica = data.sedeElectronica
          ∧ row.tipoConvocatoria = data.tipoConvocatoria
          ∧ row.presupuestoTotal = data.presupuestoTotal
          ∧ row.mrr = data.mrr
          ∧ row.descripcion = data.descripcion
          ∧ row.descripcionLeng = data.descripcionLeng
          ∧ row.descripcionFinalidad = data.descripcionFinalidad
          ∧ row.descripcionBasesReguladoras = data.descripcionBasesReguladoras
          ∧ row.urlBasesReguladoras = data.urlBasesReguladoras
          ∧ row.sePublicaDiarioOficial = data.sePublicaDiarioOficial
          ∧ row.abierto = data.abierto
          ∧ row.fechaInicioSolicitud = data.fechaInicioSolicitud
          ∧ row.fechaFinSolicitud = data.fechaFinSolicitud
          ∧ row.textInicio = data.textInicio
          ∧ row.textFin = data.textFin
          ∧ row.organo_nivel1 = data.organo.bind Organo.nivel1
          ∧ row.organo_nivel2 = data.organo.bind Organo.nivel2
          ∧ row.organo_nivel3 = data.organo.bind Organo.nivel3 :=
  ⟨⟨transform_data_length data, transform_data_ne_nil data⟩,
    fun row hr => transform_data_mem data row hr⟩

/-- C2 witness: the two-instrument record flattens to 2 = 2·1·1·1 rows, and
its first row carries the record's identifier unchanged. -/
theorem C2_flattener_rows_witness :
    (transform_data recTwoInst).length = 2
    ∧ (rowInst sX).codigoBDNS = recTwoInst.codigoBDNS := by
  constructor
  · rw [(C2_flattener_rows recTwoInst).1.1]
    decide
  · exact ((C2_flattener_rows recTwoInst).2 (rowInst sX) (by decide)).2.1

/-- C3 (counterexample): after 49 found records of two rows each the
cumulative counter is 98; the 50th found record adds three rows, taking it
to 101 — crossing the multiple 100 — yet no flush happens: the store is
still empty and the 2024 buffer still holds all the rows.  The source only
flushes when the counter lands exactly on a multiple of 100. -/
theorem C3_crossing_counterexample :
    (runLoop (initialState START_BDNS []) trace49).1.total_records = 98
    ∧ (runLoop (initialState START_BDNS []) trace50).1.total_records = 101
    ∧ (runLoop (initialState START_BDNS []) trace50).1.store = []
    ∧ bufGet (runLoop (initialState START_BDNS [])
        trace50).1.dataframes_by_year 2024 ≠ [] :=
  ⟨by decide, by decide, by decide, by decide⟩

/-- C3 (amended): after the flattened rows of a found record are buffered, a
flush of every non-empty partition is triggered if and only if the
cumulative buffered-row counter is positive and exactly divisible by 100
afterwards; when it is, every partition buffer is drained and each year's
dataset becomes the merge of its previous content with its buffer, and when
it is not, the state is exactly the post-buffering state (no flush at
all). -/
theorem C3_flush_on_exact_multiple (st : ScraperState) (data : Record) :
    if 0 < (add_rows st (transform_data data)).total_records
        ∧ (add_rows st (transform_data data)).total_records % 100 = 0 then
      ∀ y, bufGet (processFound st data).dataframes_by_year y = []
        ∧ storeGet (processFound st data).store y
            = flush (storeGet (add_rows st (transform_data data)).store y)
                (bufGet (add_rows st (transform_data data)).dataframes_by_year y)
    else processFound st data = add_rows st (transform_data data) := by
  by_cases h : 0 < (add_rows st (transform_data data)).total_records
      ∧ (add_rows st (transform_data data)).total_records % 100 = 0
  · rw [if_pos h]
    intro y
    simp only [processFound]
    rw [if_pos h]
    exact ⟨flushAll_nil_bufGet _ y, flushAll_nil_storeGet _ y⟩
  · rw [if_neg h]
    simp only [processFound]
    rw [if_neg h]

/-- C4 (counterexample): flushing the same two rows — which share an
identifier, exactly as two flattened rows of one announcement do — twice
into a year with no existing dataset is not idempotent: the first flush
persists both rows verbatim, the second deduplicates them down to one. -/
theorem C4_idempotence_counterexample :
    flush (flush none [rowA, rowB]) [rowA, rowB] ≠ flush none [rowA, rowB]
    ∧ flush none [rowA, rowB] = some [rowA, rowB]
    ∧ flush (flush none [rowA, rowB]) [rowA, rowB] = some [rowB] :=
  ⟨by decide, by decide, by decide⟩

/-- C4 (amended): flushing the same set of rows into the Store twice in
sequence yields the same persisted dataset as flushing once, provided the
rows have pairwise distinct identifiers or a dataset already exists for the
year; only a first write of rows with duplicate identifiers (the
counterexample) violates idempotence. -/
theorem C4_flush_idempotent (existing : Option Dataset) (rows : List Row)
    (h : keysNodup rows ∨ existing ≠ none) :
    flush (flush existing rows) rows = flush existing rows := by
  by_cases hr : rows = []
  · subst hr
    rw [flush_nil, flush_nil]
  · cases existing with
    | some e =>
      rw [flush_some e rows hr, flush_some _ rows hr, dedup_dedup_append,
        List.append_assoc, dedup_append_self_self]
    | none =>
      have hnodup : keysNodup rows := h.resolve_right (by simp)
      rw [flush_none_of_ne_nil rows hr, flush_some _ rows hr,
        dedup_append_of_keys_subset rows rows (fun k hk => hk),
        dedup_of_keysNodup rows hnodup]

/-- C4 witness: flushing a single-row set twice equals flushing it once. -/
theorem C4_flush_idempotent_witness :
    flush (flush none [rowA]) [rowA] = flush none [rowA] :=
  C4_flush_idempotent none [rowA] (Or.inl (by decide))

/-- C5: merge precedence — flushing new rows that contain identifier k over
an existing dataset yields a partition whose stored row for k is exactly the
last new row carrying k: the store concatenates existing-then-new and
deduplicates keeping the last occurrence, so new rows win over existing
ones. -/
theorem C5_merge_precedence (e rows : List Row) (k : Option String)
    (res : List Row) (h1 : hasKey rows k = true)
    (h2 : flush (some e) rows = some res) :
    findByKey res k = lastWithKey rows k := by
  have hne : rows ≠ [] := by
    intro hnil
    rw [hnil] at h1
    exact absurd h1 (by simp [hasKey])
  rw [flush_some e rows hne] at h2
  injection h2 with h2
  subst h2
  rw [findByKey_dedup, lastWithKey_append]
  cases hl : lastWithKey rows k with
  | some r => rfl
  | none =>
    have hs := lastWithKey_isSome rows k h1
    rw [hl] at hs
    exact absurd hs (by simp)

/-- C5 witness: the existing value V1 stored under identifier sK is replaced
by the newly flushed V2. -/
theorem C5_merge_precedence_witness :
    findByKey (dropDuplicatesKeepLast ([rowV1] ++ [rowV2])) (some sK)
      = some rowV2 := by
  have h := C5_merge_precedence [rowV1] [rowV2] (some sK)
    (dropDuplicatesKeepLast ([rowV1] ++ [rowV2])) (by decide)
    (flush_some _ _ (by decide))
  rw [h]
  decide

/-- C6 (counterexample): when the write for a partition raises, the whole
state is unchanged — in particular the partition's rows are still in the
in-memory buffer, because the buffer-clearing assignment sits after the
write inside the `try` and is skipped on failure.  The data of that flush is
therefore retried at the next flush, not lost as the claim states. -/
theorem C6_failure_counterexample :
    save_to_parquet true stBuf 2024 = stBuf
    ∧ bufGet stBuf.dataframes_by_year 2024 ≠ [] :=
  ⟨save_true_eq stBuf 2024, by decide⟩

/-- C6 (amended): a persistence failure for one partition is logged and
halts neither the Driver nor the other partitions: in a flush pass where the
years in `failSet` raise, every other year with a non-empty buffer is
drained into its dataset as usual, while a failing year keeps both its
dataset and its in-memory buffer exactly as they were — the rows remain
buffered and are retried at the next flush (at-least-once for that flush
rather than at-most-once loss). -/
theorem C6_failure_policy (failSet : List Nat) (st : ScraperState) (y : Nat) :
    bufGet (flushAll failSet st).dataframes_by_year y
      = (if y ∈ st.dataframes_by_year.map Prod.fst ∧ failSet.contains y = false
         then [] else bufGet st.dataframes_by_year y)
    ∧ storeGet (flushAll failSet st).store y
      = (if y ∈ st.dataframes_by_year.map Prod.fst ∧ failSet.contains y = false
         then flush (storeGet st.store y) (bufGet st.dataframes_by_year y)
         else storeGet st.store y) :=
  ⟨flushAll_bufGet failSet st y, flushAll_storeGet failSet st y⟩

/-- C7 (counterexample): `recTwoInst` flattens into two rows sharing its
identifier; both sit in the 2024 buffer when the run stops, well below the
100-row threshold, but the final flush merges them over the pre-existing
2024 dataset with keep-last deduplication, so the first buffered row is not
present in any persisted dataset after the stop. -/
theorem C7_presence_counterexample :
    bufGet (runLoop stPre
        [FetchOutcome.found recTwoInst]).1.dataframes_by_year 2024
      = [rowInst sX, rowInst sY]
    ∧ (storeGet (run stPre [FetchOutcome.found recTwoInst]).store 2024).isSome
        = true
    ∧ rowInst sX ∉
        (storeGet (run stPre [FetchOutcome.found recTwoInst]).store 2024).getD
          [] :=
  ⟨by decide, by decide, by decide⟩

/-- C7 (amended): on entering any stopped state — the consecutive-404
threshold reached, or the user cancelling so the trace ends — every
non-empty partition is flushed exactly once: afterwards every buffer is
empty and each year's persisted dataset equals a single `flush` of the
dataset at stop time with the rows buffered at stop time.  Hence the
identifier of every buffered row (including those below the 100-row
periodic threshold) is present in the persisted dataset, though an
individual buffered row can be superseded by keep-last deduplication by a
later row with the same identifier. -/
theorem C7_final_flush (st : ScraperState) (outcomes : List FetchOutcome)
    (y : Nat) :
    bufGet (run st outcomes).dataframes_by_year y = []
    ∧ storeGet (run st outcomes).store y
        = flush (storeGet (runLoop st outcomes).1.store y)
            (bufGet (runLoop st outcomes).1.dataframes_by_year y)
    ∧ ∀ r ∈ bufGet (runLoop st outcomes).1.dataframes_by_year y,
        hasKey ((storeGet (run st outcomes).store y).getD []) (rowKey r)
          = true := by
  refine ⟨flushAll_nil_bufGet _ y, flushAll_nil_storeGet _ y, ?_⟩
  intro r hr
  have hne : bufGet (runLoop st outcomes).1.dataframes_by_year y ≠ [] := by
    intro hnil
    rw [hnil] at hr
    exact absurd hr (List.not_mem_nil r)
  rw [show run st outcomes = flushAll [] (runLoop st outcomes).1 from rfl,
    flushAll_nil_storeGet]
  cases hst : storeGet (runLoop st outcomes).1.store y with
  | none =>
    rw [flush_none_of_ne_nil _ hne]
    exact hasKey_of_mem _ r hr
  | some e =>
    rw [flush_some e _ hne]
    show hasKey (dropDuplicatesKeepLast
      (e ++ bufGet (runLoop st outcomes).1.dataframes_by_year y)) (rowKey r)
      = true
    rw [hasKey_dedup, hasKey_append, hasKey_of_mem _ r hr]
    simp

/-- C7 witness: a cancelled run (empty remaining trace) holding one
buffered 2024 row below the threshold drains the buffer and persists the
row's identifier. -/
theorem C7_final_flush_witness :
    bufGet (run stBuf []).dataframes_by_year 2024 = []
    ∧ hasKey ((storeGet (run stBuf []).store 2024).getD [])
        (rowKey (rowInst sX)) = true := by
  have h := C7_final_flush stBuf [] 2024
  exact ⟨h.1, h.2.2 (rowInst sX) (by decide)⟩

/-- C8: after any merge operation of the Store (flush of non-empty rows into
an existing dataset) the identifier column of the partition is unique, and
every identifier's surviving row is the last row carrying it in the
existing-then-new write order — last-write-wins arbitrated by position, not
by comparing field values. -/
theorem C8_unique_ids_after_merge (e rows res : List Row)
    (h1 : rows ≠ []) (h2 : flush (some e) rows = some res) :
    keysNodup res ∧ ∀ k, findByKey res k = lastWithKey (e ++ rows) k := by
  rw [flush_some e rows h1] at h2
  injection h2 with h2
  subst h2
  exact ⟨keysNodup_dedup _, fun k => findByKey_dedup _ k⟩

/-- C8 witness: a concrete merge yields a partition with a duplicate-free
identifier column. -/
theorem C8_unique_ids_after_merge_witness :
    keysNodup (dropDuplicatesKeepLast ([rowV1] ++ [rowA, rowB])) :=
  (C8_unique_ids_after_merge [rowV1] [rowA, rowB] _ (by decide)
    (flush_some _ _ (by decide))).1

/-- C9: at Driver-start time the resume point is one past the maximum
identifier found across all persisted partitions; with no persisted files
the fixed fallback 600000 is used. -/
theorem C9_resume_point (files : List (List Nat)) :
    (files = [] → find_last_bdns files = some 600000)
    ∧ ∀ m, m ∈ files.flatten → (∀ x ∈ files.flatten, x ≤ m) →
        find_last_bdns files = some (m + 1) := by
  constructor
  · intro h
    subst h
    rfl
  · intro m hm hub
    have hfe : files.isEmpty = false := by
      cases files with
      | nil =>
        rw [List.flatten_nil] at hm
        exact absurd hm (List.not_mem_nil m)
      | cons f fs => rfl
    rw [find_last_bdns, if_neg (by simp [hfe])]
    cases hfl : files.flatten with
    | nil =>
      rw [hfl] at hm
      exact absurd hm (List.not_mem_nil m)
    | cons x xs =>
      rw [hfl] at hm hub
      simp only [hfl]
      have hc : xs.foldl max x = m := by
        apply Nat.le_antisymm
        · exact foldl_max_le xs x m (hub x (List.mem_cons_self x xs))
            (fun z hz => hub z (List.mem_cons_of_mem x hz))
        · rcases List.mem_cons.mp hm with h1 | h1
          · rw [h1]
            exact le_foldl_max xs x
          · exact mem_le_foldl_max xs x m h1
      rw [hc]

/-- C9 witness: persisted identifiers 100, 105, 200 resume at 201, and no
files resume at the fallback 600000. -/
theorem C9_resume_point_witness :
    find_last_bdns [[100, 105], [200]] = some 201
    ∧ find_last_bdns [] = some 600000 :=
  ⟨(C9_resume_point [[100, 105], [200]]).2 200 (by decide) (by decide),
    (C9_resume_point []).1 rfl⟩

/-- C10: every flattened row of one announcement carries the same
identifier, so flushing its batch into a year that already has a dataset
keeps exactly one of the k Cartesian-product rows — the last combination —
while a flush into a year with no existing dataset persists all k rows
verbatim. -/
theorem C10_merge_drops_flattened (e : List Row) (data : Record)
    (res : List Row)
    (h : flush (some e) (transform_data data) = some res) :
    (res.filter fun r => rowKey r == data.codigoBDNS).length = 1
    ∧ findByKey res data.codigoBDNS = (transform_data data).getLast?
    ∧ flush none (transform_data data) = some (transform_data data) := by
  have hne := transform_data_ne_nil data
  rw [flush_some e _ hne] at h
  injection h with h
  subst h
  have hall : ∀ r ∈ transform_data data, rowKey r = data.codigoBDNS :=
    fun r hr => transform_data_rowKey data r hr
  have hkey : hasKey (transform_data data) data.codigoBDNS = true := by
    cases hcons : transform_data data with
    | nil => exact absurd hcons hne
    | cons r rs =>
      have hmem : r ∈ transform_data data := by
        rw [hcons]
        exact List.mem_cons_self r rs
      rw [hasKey, List.any_eq_true]
      exact ⟨r, List.mem_cons_self r rs, by rw [hall r hmem]; simp⟩
  refine ⟨?_, ?_, flush_none_of_ne_nil _ hne⟩
  · apply filter_key_length_one
    · exact keysNodup_dedup _
    · rw [hasKey_dedup, hasKey_append, hkey]
      simp
  · rw [findByKey_dedup, lastWithKey_append, lastWithKey_of_all _ _ hall]
    cases hgl : (transform_data data).getLast? with
    | none =>
      have hs := List.getLast?_isSome.mpr hne
      rw [hgl] at hs
      exact absurd hs (by simp)
    | some r => rfl

/-- C10 witness: merging the two flattened rows of `recTwoInst` over an
existing dataset leaves exactly one row with its identifier, while a first
write keeps both. -/
theorem C10_merge_drops_flattened_witness :
    ((dropDuplicatesKeepLast ([rowOld] ++ transform_data recTwoInst)).filter
        fun r => rowKey r == recTwoInst.codigoBDNS).length = 1
    ∧ flush none (transform_data recTwoInst)
        = some (transform_data recTwoInst) := by
  have h := C10_merge_drops_flattened [rowOld] recTwoInst
    (dropDuplicatesKeepLast ([rowOld] ++ transform_data recTwoInst))
    (flush_some _ _ (by decide))
  exact ⟨h.1, h.2.2⟩
